import Mathlib

/-! Shallow embedding of the water-chemistry engine of src/utils/chemistry.ts
    (the thermodynamic variant: getConstants, getAlphas, solvePh,
    calculateWaterQuality, solveForTarget, lines 132-281).  Floating-point
    numbers are modelled as rationals; the transcendental primitives
    10 ^ x, log10 and sqrt are abstract functions bundled in a Prims
    record, so theorems either hold for every choice of primitives or
    assume pointwise facts that the real functions satisfy.  Every
    bounded for-loop of the source performing bisection is rendered by
    the structurally recursive helper bisect. -/

structure Prims where
  exp10 : ℚ → ℚ
  log10 : ℚ → ℚ
  sqrt : ℚ → ℚ

structure WaterParameters where
  pH : ℚ
  temp : ℚ
  tds : ℚ
  calcium : ℚ
  alkalinity : ℚ
deriving DecidableEq

inductive SatCond where
  | Undersaturated
  | Saturated
  | Oversaturated
deriving DecidableEq

structure CalculationResults where
  lsi : ℚ
  ccpp : ℚ
  phS : ℚ
  saturationCondition : SatCond
  equilibriumPh : ℚ
  equilibriumAlk : ℚ
  equilibriumCa : ℚ

structure EqConstants where
  K1 : ℚ
  K2 : ℚ
  Ks : ℚ
  Kw : ℚ
  g1 : ℚ
  g2 : ℚ

inductive Mode where
  | pH
  | calcium
deriving DecidableEq

/-- Bounded bisection loop: n iterations of
    mid := (low+high)/2; if P mid then low := mid else high := mid,
    returning the final (low, high) pair, exactly as the fixed-count
    for-loops of the source. -/
def bisect (P : ℚ → Bool) : Nat → ℚ → ℚ → ℚ × ℚ
  | 0, low, high => (low, high)
  | n + 1, low, high =>
      let mid := (low + high) / 2
      if P mid then bisect P n mid high else bisect P n low mid

/-- IS = 1.9e-5 * tds (source line 144). -/
def ionicStrength (tds : ℚ) : ℚ := 1.9e-5 * tds

/-- A_DH = 0.4918 + 0.0006614*tempC + 0.000004975*tempC^2 (source line 148). -/
def aDH (tempC : ℚ) : ℚ := 0.4918 + 0.0006614 * tempC + 0.000004975 * tempC ^ 2

/-- davies = sqrtI/(1+sqrtI) - 0.3*IS (source lines 145, 149). -/
def daviesTerm (prims : Prims) (tds : ℚ) : ℚ :=
  let sqrtI := prims.sqrt (ionicStrength tds)
  sqrtI / (1 + sqrtI) - 0.3 * ionicStrength tds

/-- getConstants of the source (lines 138-174): equilibrium constants from
    the Plummer-Busenberg fits, Davies activity coefficients, and the
    named pairingCorrection offset added to log Ks. -/
def getConstants (prims : Prims) (tempC tds : ℚ) : EqConstants :=
  let TK := tempC + 273.15
  let logTK := prims.log10 TK
  let TK2 := TK * TK
  let davies := daviesTerm prims tds
  let logK1 := -356.3094 - 0.06091964 * TK + 21834.37 / TK + 126.8339 * logTK - 1684915 / TK2
  let logK2 := -107.8871 - 0.03252849 * TK + 5151.79 / TK + 38.92561 * logTK - 563713.9 / TK2
  let logKs := -171.9065 - 0.077993 * TK + 2839.319 / TK + 71.595 * logTK
  let logKw := -4470.99 / TK + 6.0875 - 0.01706 * TK
  let pairingCorrection : ℚ := if tds > 150 then 0.038 else 0.015
  { K1 := prims.exp10 logK1
    K2 := prims.exp10 logK2
    Ks := prims.exp10 (logKs + pairingCorrection)
    Kw := prims.exp10 logKw
    g1 := prims.exp10 (-(aDH tempC * 1 * davies))
    g2 := prims.exp10 (-(aDH tempC * 4 * davies)) }

structure Alphas where
  a0 : ℚ
  a1 : ℚ
  a2 : ℚ

/-- getAlphas of the source (lines 176-183): carbonate speciation
    fractions from hydrogen-ion activity and the constants. -/
def getAlphas (aH : ℚ) (c : EqConstants) : Alphas :=
  let t1 := c.K1 / (aH * c.g1)
  let t2 := (c.K1 * c.K2) / (aH ^ 2 * c.g2)
  let a0 := 1 / (1 + t1 + t2)
  { a0 := a0, a1 := t1 * a0, a2 := t2 * a0 }

/-- calcAlk of the solvePh loop body (source line 192):
    ct * (a1 + 2*a2) + Kw/(aH*g1) - aH/g1 at a trial pH. -/
def calcAlk (prims : Prims) (ct_mol : ℚ) (c : EqConstants) (ph : ℚ) : ℚ :=
  let aH := prims.exp10 (-ph)
  let a := getAlphas aH c
  ct_mol * (a.a1 + 2 * a.a2) + c.Kw / (aH * c.g1) - aH / c.g1

/-- solvePh of the source (lines 185-196): 45 bisection steps on the
    bracket (4, 13), raising low exactly when calcAlk at the midpoint is
    below the target alkalinity, returning the final midpoint. -/
def solvePh (prims : Prims) (alk_eq ct_mol : ℚ) (c : EqConstants) : ℚ :=
  let pr := bisect (fun ph => decide (calcAlk prims ct_mol c ph < alk_eq)) 45 4 13
  (pr.1 + pr.2) / 2

def MW_CaCO3 : ℚ := 100.087

def EW_Alk : ℚ := 50.0435

/-- ca_m = calcium / (MW_CaCO3 * 1000) (source line 206). -/
def caM (p : WaterParameters) : ℚ := p.calcium / (MW_CaCO3 * 1000)

/-- alk_eq = alkalinity / (EW_Alk * 1000) (source line 207). -/
def alkEq (p : WaterParameters) : ℚ := p.alkalinity / (EW_Alk * 1000)

/-- aH_init = 10^(-pH) (source line 208). -/
def aHInit (prims : Prims) (p : WaterParameters) : ℚ := prims.exp10 (-p.pH)

/-- CT from alkalinity at a given pH:
    (alk - Kw/(aH*g1) + aH/g1) / (a1 + 2*a2), the algebraic inversion
    used at source lines 212 and 226. -/
def ctOf (prims : Prims) (c : EqConstants) (alk ph : ℚ) : ℚ :=
  let aH := prims.exp10 (-ph)
  let a := getAlphas aH c
  (alk - c.Kw / (aH * c.g1) + aH / c.g1) / (a.a1 + 2 * a.a2)

/-- ct_init of the source (line 212). -/
def ctInit (prims : Prims) (p : WaterParameters) : ℚ :=
  ctOf prims (getConstants prims p.temp p.tds) (alkEq p) p.pH

/-- co3_init = ct_init * a2 (source line 215). -/
def co3Init (prims : Prims) (p : WaterParameters) : ℚ :=
  ctInit prims p * (getAlphas (aHInit prims p) (getConstants prims p.temp p.tds)).a2

/-- iap_init = (ca_m*g2) * (co3_init*g2) (source line 216). -/
def iapInit (prims : Prims) (p : WaterParameters) : ℚ :=
  let c := getConstants prims p.temp p.tds
  caM p * c.g2 * (co3Init prims p * c.g2)

/-- The argument handed to log10 to produce lsi (source line 217). -/
def lsiArg (prims : Prims) (p : WaterParameters) : ℚ :=
  iapInit prims p / (getConstants prims p.temp p.tds).Ks

/-- lsi = log10(iap_init / Ks) (source line 217). -/
def lsiVal (prims : Prims) (p : WaterParameters) : ℚ := prims.log10 (lsiArg prims p)

/-- Saturation-index at a trial pHs (body of the loop at source
    lines 222-229). -/
def siSatAt (prims : Prims) (p : WaterParameters) (ph_s : ℚ) : ℚ :=
  let c := getConstants prims p.temp p.tds
  let aH := prims.exp10 (-ph_s)
  let alphas := getAlphas aH c
  let ct_s := ctOf prims c (alkEq p) ph_s
  prims.log10 (caM p * c.g2 * (ct_s * alphas.a2) * c.g2 / c.Ks)

/-- phS: 40 bisection steps on (5, 12), raising low when si < 0
    (source lines 220-230). -/
def phSval (prims : Prims) (p : WaterParameters) : ℚ :=
  let pr := bisect (fun ph_s => decide (siSatAt prims p ph_s < 0)) 40 5 12
  (pr.1 + pr.2) / 2

/-- ca_x = max(1e-15, ca_m - x) (source line 237). -/
def caX (p : WaterParameters) (x : ℚ) : ℚ := max 1e-15 (caM p - x)

/-- alk_x = max(1e-15, alk_eq - 2*x) (source line 238). -/
def alkX (p : WaterParameters) (x : ℚ) : ℚ := max 1e-15 (alkEq p - 2 * x)

/-- ct_x = max(1e-15, ct_init - x) (source line 239). -/
def ctX (prims : Prims) (p : WaterParameters) (x : ℚ) : ℚ :=
  max 1e-15 (ctInit prims p - x)

/-- ph_x = solvePh(alk_x, ct_x, c) (source line 241). -/
def phX (prims : Prims) (p : WaterParameters) (x : ℚ) : ℚ :=
  solvePh prims (alkX p x) (ctX prims p x) (getConstants prims p.temp p.tds)

/-- Argument of log10 in si_x (source line 244). -/
def siArgX (prims : Prims) (p : WaterParameters) (x : ℚ) : ℚ :=
  let c := getConstants prims p.temp p.tds
  let aH_x := prims.exp10 (-phX prims p x)
  let a_x := getAlphas aH_x c
  caX p x * c.g2 * (ctX prims p x * a_x.a2) * c.g2 / c.Ks

/-- si_x at a trial transfer x (source lines 241-244). -/
def siX (prims : Prims) (p : WaterParameters) (x : ℚ) : ℚ :=
  prims.log10 (siArgX prims p x)

/-- The CCPP bisection: 60 steps on the bracket (-0.1, 0.1), raising low
    exactly when si_x > 0 (source lines 233-247). -/
def ccppBracket (prims : Prims) (p : WaterParameters) : ℚ × ℚ :=
  bisect (fun x => decide (0 < siX prims p x)) 60 (-0.1) 0.1

/-- finalX = (lowX + highX) / 2 (source line 249). -/
def finalX (prims : Prims) (p : WaterParameters) : ℚ :=
  ((ccppBracket prims p).1 + (ccppBracket prims p).2) / 2

/-- ccpp = finalX * MW_CaCO3 * 1000 (source line 250). -/
def ccppVal (prims : Prims) (p : WaterParameters) : ℚ :=
  finalX prims p * MW_CaCO3 * 1000

/-- calculateWaterQuality of the source (lines 198-261). -/
def calculateWaterQuality (prims : Prims) (p : WaterParameters) : CalculationResults :=
  let c := getConstants prims p.temp p.tds
  { lsi := lsiVal prims p
    ccpp := ccppVal prims p
    phS := phSval prims p
    saturationCondition :=
      if lsiVal prims p > 0.05 then SatCond.Oversaturated
      else if lsiVal prims p < -0.05 then SatCond.Undersaturated
      else SatCond.Saturated
    equilibriumPh :=
      solvePh prims (max 1e-10 (alkEq p - 2 * finalX prims p))
        (max 1e-10 (ctInit prims p - finalX prims p)) c
    equilibriumAlk := max 0 ((alkEq p - 2 * finalX prims p) * EW_Alk * 1000)
    equilibriumCa := max 0 ((caM p - finalX prims p) * MW_CaCO3 * 1000) }

/-- testParams = { ...params, [mode]: mid }: a fresh record in which only
    the selected free variable is replaced (source line 273). -/
def setVar (p : WaterParameters) (mode : Mode) (v : ℚ) : WaterParameters :=
  match mode with
  | Mode.pH => { p with pH := v }
  | Mode.calcium => { p with calcium := v }

/-- solveForTarget of the source (lines 263-281): outer bisection on pH
    in (6, 10) or calcium in (0, 350), 40 iterations, raising low exactly
    when the recomputed ccpp is below the target; the final midpoint is
    returned unconditionally (the declared null arm is never produced). -/
def solveForTarget (prims : Prims) (p : WaterParameters) (targetCcpp : ℚ)
    (mode : Mode) : Option ℚ :=
  let low : ℚ := match mode with | Mode.pH => 6 | Mode.calcium => 0
  let high : ℚ := match mode with | Mode.pH => 10 | Mode.calcium => 350
  let pr := bisect
    (fun mid => decide ((calculateWaterQuality prims (setVar p mode mid)).ccpp < targetCcpp))
    40 low high
  some ((pr.1 + pr.2) / 2)

/-- Degenerate primitives used to instantiate witnesses: every power of
    ten collapses to 1, log10 is the shifted identity, sqrt is 0. -/
def onesPrims : Prims where
  exp10 := fun _ => 1
  log10 := fun q => q - 1
  sqrt := fun _ => 0

/-- A computable strictly monotone positive stand-in for 10 ^ x with
    value 1 at 0. -/
def expx (q : ℚ) : ℚ := if 0 ≤ q then q + 1 else 1 / (1 - q)

/-- Primitives whose sqrt is exact at 4, used for the activity-coefficient
    counterexample at IS = 4. -/
def prims9 : Prims where
  exp10 := expx
  log10 := fun q => q - 1
  sqrt := fun q => if 4 ≤ q then 2 else 0

/-- The benchmark scenario of the spec: 20 C, TDS 200, calcium 150,
    alkalinity 120, pH 7.8. -/
def scenarioParams : WaterParameters where
  pH := 7.8
  temp := 20
  tds := 200
  calcium := 150
  alkalinity := 120

/-- The scenario with a physically meaningless negative calcium. -/
def badParams : WaterParameters where
  pH := 7.8
  temp := 20
  tds := 200
  calcium := -5
  alkalinity := 120

/-- Parameters scaled so that ca_m = 2 and alk_eq = 8/5 exactly, placing
    a sign change of the trial saturation index inside the CCPP bracket
    under onesPrims. -/
def bigParams : WaterParameters where
  pH := 7.8
  temp := 20
  tds := 200
  calcium := 200174
  alkalinity := 80069.6

/-- Facts about the primitives that the real functions 10 ^ x and sqrt
    satisfy pointwise and that a rational-valued instantiation can also
    satisfy (global sqrt-squaring correctness is deliberately absent:
    no rational-valued monotone function can agree with sqrt on all
    rational squares). -/
def C9Facts (prims : Prims) : Prop :=
  StrictMono prims.exp10 ∧ (∀ q, 0 < prims.exp10 q) ∧ prims.exp10 0 = 1 ∧
    (∀ q, 0 ≤ prims.sqrt q) ∧ Monotone prims.sqrt

theorem bisect_fst_le_snd (P : ℚ → Bool) (n : Nat) (low high : ℚ) (h : low ≤ high) :
    (bisect P n low high).1 ≤ (bisect P n low high).2 := by
  induction n generalizing low high with
  | zero => exact h
  | succ n ih =>
    rw [bisect]
    by_cases hP : P ((low + high) / 2) = true
    · rw [if_pos hP]
      exact ih _ _ (by linarith)
    · rw [if_neg hP]
      exact ih _ _ (by linarith)

theorem bisect_low_le (P : ℚ → Bool) (n : Nat) (low high : ℚ) (h : low ≤ high) :
    low ≤ (bisect P n low high).1 := by
  induction n generalizing low high with
  | zero => exact le_refl low
  | succ n ih =>
    rw [bisect]
    by_cases hP : P ((low + high) / 2) = true
    · rw [if_pos hP]
      calc low ≤ (low + high) / 2 := by linarith
        _ ≤ (bisect P n ((low + high) / 2) high).1 := ih _ _ (by linarith)
    · rw [if_neg hP]
      exact ih _ _ (by linarith)

theorem bisect_snd_le (P : ℚ → Bool) (n : Nat) (low high : ℚ) (h : low ≤ high) :
    (bisect P n low high).2 ≤ high := by
  induction n generalizing low high with
  | zero => exact le_refl high
  | succ n ih =>
    rw [bisect]
    by_cases hP : P ((low + high) / 2) = true
    · rw [if_pos hP]
      exact ih _ _ (by linarith)
    · rw [if_neg hP]
      calc (bisect P n low ((low + high) / 2)).2 ≤ (low + high) / 2 := ih _ _ (by linarith)
        _ ≤ high := by linarith

theorem bisect_width (P : ℚ → Bool) (n : Nat) (low high : ℚ) :
    (bisect P n low high).2 - (bisect P n low high).1 = (high - low) / 2 ^ n := by
  induction n generalizing low high with
  | zero => simp [bisect]
  | succ n ih =>
    rw [bisect]
    by_cases hP : P ((low + high) / 2) = true
    · rw [if_pos hP, ih]
      ring
    · rw [if_neg hP, ih]
      ring

theorem bisect_endpoints (P : ℚ → Bool) (n : Nat) (low high : ℚ)
    (hl : P low = true) (hh : P high = false) :
    P (bisect P n low high).1 = true ∧ P (bisect P n low high).2 = false := by
  induction n generalizing low high with
  | zero => exact ⟨hl, hh⟩
  | succ n ih =>
    rw [bisect]
    by_cases hP : P ((low + high) / 2) = true
    · rw [if_pos hP]
      exact ih _ _ hP hh
    · rw [if_neg hP]
      exact ih _ _ hl (Bool.not_eq_true _ ▸ hP)

/-- C5: for every positive hydrogen-ion activity and every constants record
    with positive K1, K2 and positive activity coefficients, the speciation
    fractions returned by getAlphas sum to exactly 1 (hence certainly within
    the 1e-9 tolerance) and each fraction lies in the unit interval; by its
    signature getAlphas is a function of aH and the constants only. -/
theorem getAlphas_sum_one_bounds (aH : ℚ) (c : EqConstants)
    (haH : 0 < aH) (hK1 : 0 < c.K1) (hK2 : 0 < c.K2)
    (hg1 : 0 < c.g1) (hg2 : 0 < c.g2) :
    (getAlphas aH c).a0 + (getAlphas aH c).a1 + (getAlphas aH c).a2 = 1 ∧
    |(getAlphas aH c).a0 + (getAlphas aH c).a1 + (getAlphas aH c).a2 - 1| ≤ 1e-9 ∧
    0 ≤ (getAlphas aH c).a0 ∧ (getAlphas aH c).a0 ≤ 1 ∧
    0 ≤ (getAlphas aH c).a1 ∧ (getAlphas aH c).a1 ≤ 1 ∧
    0 ≤ (getAlphas aH c).a2 ∧ (getAlphas aH c).a2 ≤ 1 := by
  have ht1 : 0 < c.K1 / (aH * c.g1) := div_pos hK1 (mul_pos haH hg1)
  have ht2 : 0 < c.K1 * c.K2 / (aH ^ 2 * c.g2) :=
    div_pos (mul_pos hK1 hK2) (mul_pos (pow_pos haH 2) hg2)
  have ha0 : (getAlphas aH c).a0 =
      1 / (1 + c.K1 / (aH * c.g1) + c.K1 * c.K2 / (aH ^ 2 * c.g2)) := rfl
  have ha1 : (getAlphas aH c).a1 =
      c.K1 / (aH * c.g1) *
        (1 / (1 + c.K1 / (aH * c.g1) + c.K1 * c.K2 / (aH ^ 2 * c.g2))) := rfl
  have ha2 : (getAlphas aH c).a2 =
      c.K1 * c.K2 / (aH ^ 2 * c.g2) *
        (1 / (1 + c.K1 / (aH * c.g1) + c.K1 * c.K2 / (aH ^ 2 * c.g2))) := rfl
  set t1 := c.K1 / (aH * c.g1) with ht1d
  set t2 := c.K1 * c.K2 / (aH ^ 2 * c.g2) with ht2d
  have hden : (0 : ℚ) < 1 + t1 + t2 := by linarith
  have hsum : (getAlphas aH c).a0 + (getAlphas aH c).a1 + (getAlphas aH c).a2 = 1 := by
    rw [ha0, ha1, ha2]
    field_simp
  refine ⟨hsum, by rw [hsum]; norm_num, ?_, ?_, ?_, ?_, ?_, ?_⟩
  · rw [ha0]; positivity
  · rw [ha0]
    exact (div_le_one hden).mpr (by linarith)
  · rw [ha1]; positivity
  · rw [ha1, mul_one_div]
    exact (div_le_one hden).mpr (by linarith)
  · rw [ha2]; positivity
  · rw [ha2, mul_one_div]
    exact (div_le_one hden).mpr (by linarith)

/-- C5 witness: concrete positive inputs, fractions evaluated. -/
theorem getAlphas_sum_one_bounds_witness :
    (0 : ℚ) < 1 ∧
    ((getAlphas 1 ⟨1, 1, 1, 1, 1, 1⟩).a0 + (getAlphas 1 ⟨1, 1, 1, 1, 1, 1⟩).a1 +
        (getAlphas 1 ⟨1, 1, 1, 1, 1, 1⟩).a2 = 1 ∧
      |(getAlphas 1 ⟨1, 1, 1, 1, 1, 1⟩).a0 + (getAlphas 1 ⟨1, 1, 1, 1, 1, 1⟩).a1 +
          (getAlphas 1 ⟨1, 1, 1, 1, 1, 1⟩).a2 - 1| ≤ 1e-9 ∧
      0 ≤ (getAlphas 1 ⟨1, 1, 1, 1, 1, 1⟩).a0 ∧ (getAlphas 1 ⟨1, 1, 1, 1, 1, 1⟩).a0 ≤ 1 ∧
      0 ≤ (getAlphas 1 ⟨1, 1, 1, 1, 1, 1⟩).a1 ∧ (getAlphas 1 ⟨1, 1, 1, 1, 1, 1⟩).a1 ≤ 1 ∧
      0 ≤ (getAlphas 1 ⟨1, 1, 1, 1, 1, 1⟩).a2 ∧ (getAlphas 1 ⟨1, 1, 1, 1, 1, 1⟩).a2 ≤ 1) :=
  ⟨by decide,
    getAlphas_sum_one_bounds 1 ⟨1, 1, 1, 1, 1, 1⟩ (by decide) (by decide) (by decide)
      (by decide) (by decide)⟩

/-- C6: the saturationCondition returned by calculateWaterQuality is
    Oversaturated iff lsi exceeds 0.05, Undersaturated iff lsi is below
    -0.05, and Saturated otherwise; the two thresholds 0.05 and -0.05 have
    equal magnitude. -/
theorem satCondition_thresholds (prims : Prims) (p : WaterParameters) :
    ((calculateWaterQuality prims p).saturationCondition = SatCond.Oversaturated ↔
      0.05 < (calculateWaterQuality prims p).lsi) ∧
    ((calculateWaterQuality prims p).saturationCondition = SatCond.Undersaturated ↔
      (calculateWaterQuality prims p).lsi < -0.05) ∧
    ((calculateWaterQuality prims p).saturationCondition = SatCond.Saturated ↔
      -0.05 ≤ (calculateWaterQuality prims p).lsi ∧
        (calculateWaterQuality prims p).lsi ≤ 0.05) := by
  have hlsi : (calculateWaterQuality prims p).lsi = lsiVal prims p := rfl
  have hsc : (calculateWaterQuality prims p).saturationCondition =
      (if lsiVal prims p > 0.05 then SatCond.Oversaturated
        else if lsiVal prims p < -0.05 then SatCond.Undersaturated
        else SatCond.Saturated) := rfl
  rw [hlsi, hsc]
  split_ifs with h1 h2
  · refine ⟨⟨fun _ => h1, fun _ => rfl⟩, ⟨fun hc => ?_, fun hlt => ?_⟩,
      ⟨fun hc => ?_, fun hb => ?_⟩⟩
    · exact absurd hc (by decide)
    · exact absurd (lt_trans hlt (by norm_num)) (not_lt.mpr (le_of_lt h1))
    · exact absurd hc (by decide)
    · exact absurd h1 (not_lt.mpr hb.2)
  · refine ⟨⟨fun hc => ?_, fun hgt => ?_⟩, ⟨fun _ => h2, fun _ => rfl⟩,
      ⟨fun hc => ?_, fun hb => ?_⟩⟩
    · exact absurd hc (by decide)
    · exact absurd (lt_trans h2 (by norm_num)) (not_lt.mpr (le_of_lt hgt))
    · exact absurd hc (by decide)
    · exact absurd h2 (not_lt.mpr hb.1)
  · refine ⟨⟨fun hc => ?_, fun hgt => ?_⟩, ⟨fun hc => ?_, fun hlt => ?_⟩,
      ⟨fun _ => ⟨not_lt.mp h2, not_lt.mp h1⟩, fun _ => rfl⟩⟩
    · exact absurd hc (by decide)
    · exact absurd hgt h1
    · exact absurd hc (by decide)
    · exact absurd hlt h2

/-- C8: the equilibrium pH solver is 45 bisection steps over the fixed
    bracket (4, 13) on the predicate calcAlk at midpoint below target,
    returning the midpoint of the final bracket of width 9 / 2^45; hence
    the returned pH always lies within the bracket. -/
theorem solvePh_range (prims : Prims) (alk ct : ℚ) (c : EqConstants) :
    solvePh prims alk ct c =
      ((bisect (fun ph => decide (calcAlk prims ct c ph < alk)) 45 4 13).1 +
        (bisect (fun ph => decide (calcAlk prims ct c ph < alk)) 45 4 13).2) / 2 ∧
    4 ≤ (bisect (fun ph => decide (calcAlk prims ct c ph < alk)) 45 4 13).1 ∧
    (bisect (fun ph => decide (calcAlk prims ct c ph < alk)) 45 4 13).1 ≤
      (bisect (fun ph => decide (calcAlk prims ct c ph < alk)) 45 4 13).2 ∧
    (bisect (fun ph => decide (calcAlk prims ct c ph < alk)) 45 4 13).2 ≤ 13 ∧
    (bisect (fun ph => decide (calcAlk prims ct c ph < alk)) 45 4 13).2 -
      (bisect (fun ph => decide (calcAlk prims ct c ph < alk)) 45 4 13).1 = 9 / 2 ^ 45 ∧
    4 ≤ solvePh prims alk ct c ∧ solvePh prims alk ct c ≤ 13 := by
  have hlo := bisect_low_le (fun ph => decide (calcAlk prims ct c ph < alk)) 45 4 13
    (by norm_num)
  have hhi := bisect_snd_le (fun ph => decide (calcAlk prims ct c ph < alk)) 45 4 13
    (by norm_num)
  have hle := bisect_fst_le_snd (fun ph => decide (calcAlk prims ct c ph < alk)) 45 4 13
    (by norm_num)
  have hw := bisect_width (fun ph => decide (calcAlk prims ct c ph < alk)) 45 4 13
  have hmid : solvePh prims alk ct c =
      ((bisect (fun ph => decide (calcAlk prims ct c ph < alk)) 45 4 13).1 +
        (bisect (fun ph => decide (calcAlk prims ct c ph < alk)) 45 4 13).2) / 2 := rfl
  refine ⟨hmid, hlo, hle, hhi, by rw [hw]; norm_num, ?_, ?_⟩
  · rw [hmid]; linarith
  · rw [hmid]; linarith

/-- C1 (code evaluation): solveForTarget unconditionally returns the final
    bracket midpoint wrapped in some; the not-found signal null is never
    produced, for any parameters, target and mode, in particular for the
    unreachable target 10000. -/
theorem solveForTarget_isSome (prims : Prims) (p : WaterParameters)
    (targetCcpp : ℚ) (mode : Mode) :
    (solveForTarget prims p targetCcpp mode).isSome = true := rfl

/-- C10: solveForTarget never mutates its params argument: the trial record
    passed to each inner calculateWaterQuality call is a fresh copy in which
    only the selected free variable carries the bisection midpoint, all
    other fields keeping the original values, and solveForTarget is exactly
    the outer bisection over those trial records. -/
theorem solveForTarget_frame (prims : Prims) (p : WaterParameters)
    (v targetCcpp : ℚ) :
    ((setVar p Mode.pH v).pH = v ∧ (setVar p Mode.pH v).temp = p.temp ∧
      (setVar p Mode.pH v).tds = p.tds ∧ (setVar p Mode.pH v).calcium = p.calcium ∧
      (setVar p Mode.pH v).alkalinity = p.alkalinity) ∧
    ((setVar p Mode.calcium v).calcium = v ∧ (setVar p Mode.calcium v).temp = p.temp ∧
      (setVar p Mode.calcium v).tds = p.tds ∧ (setVar p Mode.calcium v).pH = p.pH ∧
      (setVar p Mode.calcium v).alkalinity = p.alkalinity) ∧
    (∀ mode : Mode, solveForTarget prims p targetCcpp mode =
      some (((bisect (fun mid =>
            decide ((calculateWaterQuality prims (setVar p mode mid)).ccpp < targetCcpp)) 40
            (match mode with | Mode.pH => 6 | Mode.calcium => 0)
            (match mode with | Mode.pH => 10 | Mode.calcium => 350)).1 +
          (bisect (fun mid =>
            decide ((calculateWaterQuality prims (setVar p mode mid)).ccpp < targetCcpp)) 40
            (match mode with | Mode.pH => 6 | Mode.calcium => 0)
            (match mode with | Mode.pH => 10 | Mode.calcium => 350)).2) / 2)) := by
  refine ⟨⟨rfl, rfl, rfl, rfl, rfl⟩, ⟨rfl, rfl, rfl, rfl, rfl⟩, fun mode => ?_⟩
  cases mode <;> rfl

theorem getConstants_pos (prims : Prims) (hexp : ∀ q, 0 < prims.exp10 q)
    (tempC tds : ℚ) :
    0 < (getConstants prims tempC tds).K1 ∧ 0 < (getConstants prims tempC tds).K2 ∧
    0 < (getConstants prims tempC tds).Ks ∧ 0 < (getConstants prims tempC tds).Kw ∧
    0 < (getConstants prims tempC tds).g1 ∧ 0 < (getConstants prims tempC tds).g2 :=
  ⟨hexp _, hexp _, hexp _, hexp _, hexp _, hexp _⟩

theorem getAlphas_a2_pos (aH : ℚ) (c : EqConstants) (haH : 0 < aH)
    (hK1 : 0 < c.K1) (hK2 : 0 < c.K2) (hg1 : 0 < c.g1) (hg2 : 0 < c.g2) :
    0 < (getAlphas aH c).a2 := by
  have ht1 : 0 < c.K1 / (aH * c.g1) := div_pos hK1 (mul_pos haH hg1)
  have ht2 : 0 < c.K1 * c.K2 / (aH ^ 2 * c.g2) :=
    div_pos (mul_pos hK1 hK2) (mul_pos (pow_pos haH 2) hg2)
  have ha2 : (getAlphas aH c).a2 =
      c.K1 * c.K2 / (aH ^ 2 * c.g2) *
        (1 / (1 + c.K1 / (aH * c.g1) + c.K1 * c.K2 / (aH ^ 2 * c.g2))) := rfl
  rw [ha2]
  have hden : (0 : ℚ) < 1 + c.K1 / (aH * c.g1) + c.K1 * c.K2 / (aH ^ 2 * c.g2) := by
    linarith
  positivity

/-- C2 counterexample: it is false that the engine keeps the argument of
    log10 in the lsi computation positive for every input: with a negative
    calcium the function still computes, handing log10 a negative number
    (NaN in IEEE terms) instead of failing fast. -/
theorem lsi_arg_not_always_pos :
    ¬ (∀ prims : Prims, (∀ q, 0 < prims.exp10 q) →
        ∀ p : WaterParameters, 0 < lsiArg prims p) := by
  intro h
  have hbad := h onesPrims (fun _ => one_pos) badParams
  have hneg : lsiArg onesPrims badParams < 0 := by
    norm_num [lsiArg, iapInit, co3Init, ctInit, ctOf, caM, alkEq, aHInit, getAlphas,
      getConstants, onesPrims, daviesTerm, ionicStrength, aDH, MW_CaCO3, EW_Alk, badParams]
  exact absurd hbad (not_lt.mpr (le_of_lt hneg))

/-- C2 (amended): calculateWaterQuality performs no input validation: for a
    negative calcium (with the computed initial carbon positive) it silently
    computes a negative argument for log10 and stores log10 of that negative
    number as the lsi of the returned record, rather than failing fast. -/
theorem invalid_calcium_negative_log_arg (prims : Prims) (p : WaterParameters)
    (hexp : ∀ q, 0 < prims.exp10 q) (hca : p.calcium < 0)
    (hct : 0 < ctInit prims p) :
    lsiArg prims p < 0 ∧
      (calculateWaterQuality prims p).lsi = prims.log10 (lsiArg prims p) := by
  obtain ⟨hK1, hK2, hKs, hKw, hg1, hg2⟩ := getConstants_pos prims hexp p.temp p.tds
  have haH : 0 < aHInit prims p := hexp _
  have ha2 : 0 < (getAlphas (aHInit prims p) (getConstants prims p.temp p.tds)).a2 :=
    getAlphas_a2_pos _ _ haH hK1 hK2 hg1 hg2
  have hco3 : 0 < co3Init prims p := mul_pos hct ha2
  have hcam : caM p < 0 := div_neg_of_neg_of_pos hca (by norm_num [MW_CaCO3])
  have hiap : iapInit prims p < 0 := by
    have hrw : iapInit prims p =
        caM p * (getConstants prims p.temp p.tds).g2 *
          (co3Init prims p * (getConstants prims p.temp p.tds).g2) := rfl
    rw [hrw]
    exact mul_neg_of_neg_of_pos (mul_neg_of_neg_of_pos hcam hg2) (mul_pos hco3 hg2)
  exact ⟨div_neg_of_neg_of_pos hiap hKs, rfl⟩

/-- C2 witness: the scenario water with calcium -5 satisfies the hypotheses
    and the engine stores log10 of a negative argument in the result. -/
theorem invalid_calcium_negative_log_arg_witness :
    (∀ q, 0 < onesPrims.exp10 q) ∧ badParams.calcium < 0 ∧
    0 < ctInit onesPrims badParams ∧
    (lsiArg onesPrims badParams < 0 ∧
      (calculateWaterQuality onesPrims badParams).lsi =
        onesPrims.log10 (lsiArg onesPrims badParams)) :=
  by
  have h1 : ∀ q, 0 < onesPrims.exp10 q := fun _ => one_pos
  have h2 : badParams.calcium < 0 := by norm_num [badParams]
  have h3 : 0 < ctInit onesPrims badParams := by
    norm_num [ctInit, ctOf, alkEq, aHInit, getAlphas, getConstants, onesPrims,
      daviesTerm, ionicStrength, aDH, EW_Alk, badParams]
  exact ⟨h1, h2, h3, invalid_calcium_negative_log_arg onesPrims badParams h1 h2 h3⟩

/-- C7 counterexample: the trial update of the CCPP solver is not always
    Ca minus x: at the in-bracket trial transfer x = 1/20 on the benchmark
    scenario the positivity floor is active and ca_x is the floor 1e-15,
    not ca_m - x. -/
theorem ccpp_trial_update_clamped :
    -0.1 ≤ (1 / 20 : ℚ) ∧ (1 / 20 : ℚ) ≤ 0.1 ∧
    caX scenarioParams (1 / 20) ≠ caM scenarioParams - 1 / 20 := by
  refine ⟨by norm_num, by norm_num, ?_⟩
  have hlt : caM scenarioParams - 1 / 20 < 1e-15 := by
    norm_num [caM, MW_CaCO3, scenarioParams]
  have hmax : caX scenarioParams (1 / 20) = 1e-15 := max_eq_left (le_of_lt hlt)
  rw [hmax]
  exact ne_of_gt hlt

/-- C7 (amended): each trial transfer x of the CCPP solver updates the
    state to Ca - x, Alk - 2x, CT - x whenever these stay above the 1e-15
    stability floor (otherwise the floor is substituted), re-solves the
    trial pH from the updated alkalinity and carbon via the equilibrium pH
    solver, and branches on the sign of the resulting saturation index;
    when the index is positive at the lower bracket end -0.1 and
    non-positive at the upper end 0.1, the final bracket of width 0.2/2^60
    still straddles the sign change and the returned ccpp is its midpoint
    converted to mg/L. -/
theorem ccpp_solver_spec (prims : Prims) (p : WaterParameters)
    (hl : 0 < siX prims p (-0.1)) (hh : ¬ 0 < siX prims p 0.1) :
    (∀ x : ℚ, 1e-15 ≤ caM p - x → caX p x = caM p - x) ∧
    (∀ x : ℚ, 1e-15 ≤ alkEq p - 2 * x → alkX p x = alkEq p - 2 * x) ∧
    (∀ x : ℚ, 1e-15 ≤ ctInit prims p - x → ctX prims p x = ctInit prims p - x) ∧
    (∀ x : ℚ, phX prims p x =
      solvePh prims (alkX p x) (ctX prims p x) (getConstants prims p.temp p.tds)) ∧
    ccppBracket prims p = bisect (fun x => decide (0 < siX prims p x)) 60 (-0.1) 0.1 ∧
    0 < siX prims p (ccppBracket prims p).1 ∧
    ¬ 0 < siX prims p (ccppBracket prims p).2 ∧
    (ccppBracket prims p).2 - (ccppBracket prims p).1 = 0.2 / 2 ^ 60 ∧
    (calculateWaterQuality prims p).ccpp =
      ((ccppBracket prims p).1 + (ccppBracket prims p).2) / 2 * MW_CaCO3 * 1000 := by
  have hb := bisect_endpoints (fun x => decide (0 < siX prims p x)) 60 (-0.1) 0.1
    (decide_eq_true hl) (decide_eq_false hh)
  have hw := bisect_width (fun x => decide (0 < siX prims p x)) 60 (-0.1) 0.1
  refine ⟨fun x hx => max_eq_right hx, fun x hx => max_eq_right hx,
    fun x hx => max_eq_right hx, fun x => rfl, rfl,
    of_decide_eq_true hb.1, of_decide_eq_false hb.2, ?_, rfl⟩
  rw [show (ccppBracket prims p).2 - (ccppBracket prims p).1 =
      (bisect (fun x => decide (0 < siX prims p x)) 60 (-0.1) 0.1).2 -
        (bisect (fun x => decide (0 < siX prims p x)) 60 (-0.1) 0.1).1 from rfl, hw]
  norm_num

/-- C7 witness: parameters with ca_m = 2 and alk_eq = 8/5 place the sign
    change of the trial saturation index inside the bracket under the
    degenerate primitives, and the final bracket still straddles it. -/
theorem ccpp_solver_spec_witness :
    0 < siX onesPrims bigParams (-0.1) ∧ ¬ 0 < siX onesPrims bigParams 0.1 ∧
    0 < siX onesPrims bigParams (ccppBracket onesPrims bigParams).1 ∧
    ¬ 0 < siX onesPrims bigParams (ccppBracket onesPrims bigParams).2 :=
  by
  have h1 : 0 < siX onesPrims bigParams (-0.1) := by
    norm_num [siX, siArgX, caX, ctX, caM, ctInit, ctOf, alkEq, aHInit, getAlphas,
      getConstants, onesPrims, daviesTerm, ionicStrength, aDH, MW_CaCO3, EW_Alk,
      bigParams, max_def]
  have h2 : ¬ 0 < siX onesPrims bigParams 0.1 := by
    norm_num [siX, siArgX, caX, ctX, caM, ctInit, ctOf, alkEq, aHInit, getAlphas,
      getConstants, onesPrims, daviesTerm, ionicStrength, aDH, MW_CaCO3, EW_Alk,
      bigParams, max_def]
  exact ⟨h1, h2, (ccpp_solver_spec onesPrims bigParams h1 h2).2.2.2.2.2.1,
    (ccpp_solver_spec onesPrims bigParams h1 h2).2.2.2.2.2.2.1⟩

theorem expx_pos (q : ℚ) : 0 < expx q := by
  unfold expx
  split_ifs with h
  · linarith
  · have hq : q < 0 := not_le.mp h
    exact div_pos one_pos (by linarith)

theorem expx_strictMono : StrictMono expx := by
  intro a b hab
  unfold expx
  split_ifs with ha hb hb
  · linarith
  · exact absurd (le_trans ha hab.le) hb
  · have ha' : a < 0 := not_le.mp ha
    have h1 : 1 / (1 - a) < 1 := by
      rw [div_lt_one (by linarith)]
      linarith
    linarith
  · have ha' : a < 0 := not_le.mp ha
    have hb' : b < 0 := not_le.mp hb
    exact one_div_lt_one_div_of_lt (by linarith) (by linarith)

theorem expx_zero : expx 0 = 1 := by norm_num [expx]

theorem prims9_sqrt_nonneg (q : ℚ) : 0 ≤ prims9.sqrt q := by
  have hrw : prims9.sqrt q = if 4 ≤ q then (2 : ℚ) else 0 := rfl
  rw [hrw]
  split_ifs <;> norm_num

theorem prims9_sqrt_mono : Monotone prims9.sqrt := by
  intro a b hab
  have hra : prims9.sqrt a = if 4 ≤ a then (2 : ℚ) else 0 := rfl
  have hrb : prims9.sqrt b = if 4 ≤ b then (2 : ℚ) else 0 := rfl
  rw [hra, hrb]
  split_ifs with h1 h2 h2
  · exact le_refl _
  · exact absurd (le_trans h1 hab) h2
  · norm_num
  · exact le_refl _

theorem prims9_facts : C9Facts prims9 :=
  ⟨expx_strictMono, expx_pos, expx_zero, prims9_sqrt_nonneg, prims9_sqrt_mono⟩

/-- C9 counterexample: the claimed bounds 0 < gamma2 and gamma2 at most
    gamma1 at most 1 do not hold for every TDS at least 0: with primitives
    satisfying the pointwise facts of the real functions (and sqrt exact at
    the evaluation point IS = 4), the water at 20 C with TDS = 4000000/19
    (about 210526 mg/L) has a negative Davies term, so gamma1 exceeds 1. -/
theorem gamma_bounds_not_all_tds :
    ¬ (∀ prims : Prims, C9Facts prims → ∀ tempC tds : ℚ,
        0 ≤ tempC → tempC ≤ 60 → 0 ≤ tds →
        (0 < (getConstants prims tempC tds).g2 ∧
          (getConstants prims tempC tds).g2 ≤ (getConstants prims tempC tds).g1 ∧
          (getConstants prims tempC tds).g1 ≤ 1)) := by
  intro h
  have h2 := (h prims9 prims9_facts 20 (4000000 / 19) (by norm_num) (by norm_num)
    (by norm_num)).2.2
  have hgt : 1 < (getConstants prims9 20 (4000000 / 19)).g1 := by
    norm_num [getConstants, prims9, expx, daviesTerm, ionicStrength, aDH]
  exact absurd h2 (not_le.mpr hgt)

/-- C9 (amended): for every temperature in 0..60 and every TDS whose
    Davies term sqrtI/(1+sqrtI) - 0.3*IS is nonnegative (which covers all
    TDS up to roughly 102000 mg/L, hence every water of interest), the
    activity coefficients satisfy 0 < gamma2, gamma2 at most gamma1, and
    gamma1 at most 1; beyond that TDS range the Davies term turns negative
    and both coefficients exceed 1, gamma1 not above gamma2. -/
theorem gamma_bounds_davies_nonneg (prims : Prims) (tempC tds : ℚ)
    (hmono : Monotone prims.exp10) (hpos : ∀ q, 0 < prims.exp10 q)
    (hone : prims.exp10 0 = 1) (ht0 : 0 ≤ tempC) (ht60 : tempC ≤ 60)
    (htds : 0 ≤ tds) (hdav : 0 ≤ daviesTerm prims tds) :
    0 < (getConstants prims tempC tds).g2 ∧
      (getConstants prims tempC tds).g2 ≤ (getConstants prims tempC tds).g1 ∧
      (getConstants prims tempC tds).g1 ≤ 1 := by
  have h1 : 0 ≤ (0.0006614 : ℚ) * tempC := mul_nonneg (by norm_num) ht0
  have h2 : 0 ≤ (0.000004975 : ℚ) * tempC ^ 2 := mul_nonneg (by norm_num) (sq_nonneg _)
  have hA : 0 ≤ aDH tempC := by
    unfold aDH
    linarith
  have had : 0 ≤ aDH tempC * daviesTerm prims tds := mul_nonneg hA hdav
  have hg1eq : (getConstants prims tempC tds).g1 =
      prims.exp10 (-(aDH tempC * 1 * daviesTerm prims tds)) := rfl
  have hg2eq : (getConstants prims tempC tds).g2 =
      prims.exp10 (-(aDH tempC * 4 * daviesTerm prims tds)) := rfl
  refine ⟨hpos _, ?_, ?_⟩
  · rw [hg1eq, hg2eq]
    exact hmono (by nlinarith)
  · rw [hg1eq, ← hone]
    exact hmono (by nlinarith)

/-- C9 witness: at 20 C and TDS 0 the Davies term is 0 and the bounds hold
    under the degenerate primitives. -/
theorem gamma_bounds_davies_nonneg_witness :
    Monotone onesPrims.exp10 ∧ (∀ q, 0 < onesPrims.exp10 q) ∧
    onesPrims.exp10 0 = 1 ∧ (0 : ℚ) ≤ 20 ∧ (20 : ℚ) ≤ 60 ∧ (0 : ℚ) ≤ 0 ∧
    0 ≤ daviesTerm onesPrims 0 ∧
    (0 < (getConstants onesPrims 20 0).g2 ∧
      (getConstants onesPrims 20 0).g2 ≤ (getConstants onesPrims 20 0).g1 ∧
      (getConstants onesPrims 20 0).g1 ≤ 1) := by
  have hm : Monotone onesPrims.exp10 := monotone_const
  have hp : ∀ q, 0 < onesPrims.exp10 q := fun _ => one_pos
  have ho : onesPrims.exp10 0 = 1 := rfl
  have hd : 0 ≤ daviesTerm onesPrims 0 := by
    norm_num [daviesTerm, ionicStrength, onesPrims]
  exact ⟨hm, hp, ho, by norm_num, by norm_num, le_refl 0, hd,
    gamma_bounds_davies_nonneg onesPrims 20 0 hm hp ho (by norm_num) (by norm_num)
      (le_refl 0) hd⟩
